import Mathlib

/-!
Verification of the batch telemetry aggregation and degradation-analytics
engine of the NASA-Turbojet-BigData-Analysis repository.

The Python MapReduce jobs (`mr_feature_summary.py`, `mr_sensor_stats.py`,
`mr_degradation_metrics.py`) and the RUL-labeling / training code
(`backend/model_service.py`) are shallowly embedded below.  Machine floats
are modelled by exact rationals (`ℚ`); Python's `round(x, k)` is modelled
by rounding to the nearest multiple of `10^(-k)`; Python's
`float('inf')`/`float('-inf')` reducer seeds are modelled by `⊤ : WithTop ℚ`
and `⊥ : WithBot ℚ`.  A delimiter-separated input field is modelled by
`Option ℚ`: `some q` when Python's `float()` conversion succeeds with value
`q`, `none` when it raises `ValueError`.
-/

namespace Turbojet

/-- Python `round(x, 2)`: round to the nearest multiple of 1/100
(ties are immaterial to every property below). -/
def round2 (q : ℚ) : ℚ := (round (q * 100) : ℤ) / 100

/-- Python `round(x, 4)`: round to the nearest multiple of 1/10000. -/
def round4 (q : ℚ) : ℚ := (round (q * 10000) : ℤ) / 10000

/-- Python `int(x)` on a float: truncation toward zero. -/
def ratTrunc (q : ℚ) : ℤ := if 0 ≤ q then ⌊q⌋ else ⌈q⌉

/-! ### Statistical aggregator (`mr_feature_summary.py`)

`AggregateStat` is the dictionary `{count, sum, min, max, sum_sq}` produced
by `MRFeatureSummary.combiner` for one feature.  A nonempty value stream is
encoded as a head `v` plus a tail list `l` (the stream `v :: l`), because the
combiner emits nothing on an empty stream. -/

structure AggregateStat where
  count : ℕ
  sum : ℚ
  sum_sq : ℚ
  min : ℚ
  max : ℚ
  deriving Repr, DecidableEq

/-- Combiner `MRFeatureSummary.combiner` on the nonempty value stream `v :: l`:
`count = len`, `sum`, `min`, `max`, `sum_sq = sum of squares`. -/
def combinerStat (v : ℚ) (l : List ℚ) : AggregateStat :=
  { count := l.length + 1
    sum := v + l.sum
    sum_sq := v * v + (l.map (fun x => x * x)).sum
    min := l.foldl min v
    max := l.foldl max v }

/-- One iteration of `MRFeatureSummary.reducer`'s aggregation loop, applied
to two already-aggregated states: sum of counts, sum of sums, min of mins,
max of maxes, sum of sum_sq.  This is the `merge` of the spec's
`AggregateStat`. -/
def mergeStats (a b : AggregateStat) : AggregateStat :=
  { count := a.count + b.count
    sum := a.sum + b.sum
    sum_sq := a.sum_sq + b.sum_sq
    min := min a.min b.min
    max := max a.max b.max }

/-- Finalized mean: `sum / count if count > 0 else 0`
(`mr_feature_summary.py`, reducer). -/
def statMean (s : AggregateStat) : ℚ :=
  if s.count = 0 then 0 else s.sum / s.count

/-- Finalized population variance: `sum_sq / count - mean^2` when
`count > 0`, else 0 (`mr_feature_summary.py`, reducer). -/
def statVariance (s : AggregateStat) : ℚ :=
  if s.count = 0 then 0 else s.sum_sq / s.count - statMean s * statMean s

lemma foldl_min_assoc (l : List ℚ) (a b : ℚ) :
    l.foldl min (min a b) = min a (l.foldl min b) := by
  induction l generalizing b with
  | nil => rfl
  | cons x t ih =>
      simp only [List.foldl_cons]
      rw [min_assoc, ih]

lemma foldl_max_assoc (l : List ℚ) (a b : ℚ) :
    l.foldl max (max a b) = max a (l.foldl max b) := by
  induction l generalizing b with
  | nil => rfl
  | cons x t ih =>
      simp only [List.foldl_cons]
      rw [max_assoc, ih]

/-- Merging the combiner states of two nonempty streams is the combiner
state of the concatenated stream. -/
lemma mergeStats_combinerStat (v₁ : ℚ) (l₁ : List ℚ) (v₂ : ℚ) (l₂ : List ℚ) :
    mergeStats (combinerStat v₁ l₁) (combinerStat v₂ l₂) =
      combinerStat v₁ (l₁ ++ v₂ :: l₂) := by
  unfold mergeStats combinerStat
  refine AggregateStat.mk.injEq .. ▸ ⟨?_, ?_, ?_, ?_, ?_⟩ <;>
    simp only [List.length_append, List.length_cons, List.sum_append,
      List.map_append, List.map_cons, List.sum_cons, List.foldl_append,
      List.foldl_cons]
  · ring
  · ring
  · ring
  · rw [foldl_min_assoc]
  · rw [foldl_max_assoc]

lemma mergeStats_assoc (a b c : AggregateStat) :
    mergeStats (mergeStats a b) c = mergeStats a (mergeStats b c) := by
  simp [mergeStats, Nat.add_assoc, add_assoc, min_assoc, max_assoc]

lemma mergeStats_comm (a b : AggregateStat) :
    mergeStats a b = mergeStats b a := by
  simp [mergeStats, Nat.add_comm, add_comm, min_comm, max_comm]

/-- C1: For every pair of disjoint partitions `P1 = v₁ :: l₁` and
`P2 = v₂ :: l₂` of a feature's value stream, merging the accumulator states
produced by aggregating each partition separately (sum of counts, sum of
sums, sum of sum_sq, min of mins, max of maxes) equals aggregating the whole
stream in one pass; `merge` is associative and commutative; and the
finalized mean and variance of the merged state coincide with those of the
one-pass aggregation. -/
theorem aggregator_merge_partition_invariant
    (v₁ : ℚ) (l₁ : List ℚ) (v₂ : ℚ) (l₂ : List ℚ) (a b c : AggregateStat) :
    mergeStats (combinerStat v₁ l₁) (combinerStat v₂ l₂) =
        combinerStat v₁ (l₁ ++ v₂ :: l₂) ∧
      mergeStats (mergeStats a b) c = mergeStats a (mergeStats b c) ∧
      mergeStats a b = mergeStats b a ∧
      statMean (mergeStats (combinerStat v₁ l₁) (combinerStat v₂ l₂)) =
        statMean (combinerStat v₁ (l₁ ++ v₂ :: l₂)) ∧
      statVariance (mergeStats (combinerStat v₁ l₁) (combinerStat v₂ l₂)) =
        statVariance (combinerStat v₁ (l₁ ++ v₂ :: l₂)) :=
  ⟨mergeStats_combinerStat v₁ l₁ v₂ l₂, mergeStats_assoc a b c,
    mergeStats_comm a b,
    by rw [mergeStats_combinerStat], by rw [mergeStats_combinerStat]⟩

/-! ### Fold bounds for min/max (used for the `min ≤ mean ≤ max` invariant) -/

lemma foldl_min_le_init (l : List ℚ) (v : ℚ) : l.foldl min v ≤ v := by
  induction l generalizing v with
  | nil => exact le_refl v
  | cons x t ih =>
      simp only [List.foldl_cons]
      exact le_trans (ih (min v x)) (min_le_left v x)

lemma init_le_foldl_max (l : List ℚ) (v : ℚ) : v ≤ l.foldl max v := by
  induction l generalizing v with
  | nil => exact le_refl v
  | cons x t ih =>
      simp only [List.foldl_cons]
      exact le_trans (le_max_left v x) (ih (max v x))

lemma foldl_min_mul_le_sum (l : List ℚ) (v : ℚ) :
    l.foldl min v * (l.length + 1 : ℚ) ≤ v + l.sum := by
  induction l generalizing v with
  | nil => simp
  | cons x t ih =>
      have h := ih (min v x)
      have hM : t.foldl min (min v x) ≤ min v x := foldl_min_le_init t (min v x)
      have hx : t.foldl min (min v x) ≤ x := le_trans hM (min_le_right v x)
      have hv : min v x ≤ v := min_le_left v x
      simp only [List.foldl_cons, List.sum_cons, List.length_cons]
      push_cast
      nlinarith [h, hx, hv]

lemma sum_le_foldl_max_mul (l : List ℚ) (v : ℚ) :
    v + l.sum ≤ l.foldl max v * (l.length + 1 : ℚ) := by
  induction l generalizing v with
  | nil => simp
  | cons x t ih =>
      have h := ih (max v x)
      have hM : max v x ≤ t.foldl max (max v x) := init_le_foldl_max t (max v x)
      have hx : x ≤ t.foldl max (max v x) := le_trans (le_max_right v x) hM
      have hv : v ≤ max v x := le_max_left v x
      simp only [List.foldl_cons, List.sum_cons, List.length_cons]
      push_cast
      nlinarith [h, hx, hv]

/-! ### RUL labeling (`backend/model_service.py`, `prepare_training_data`)

One unit's record cycles are encoded as the nonempty list `c₀ :: l`.
`prepare_training_data` computes `max_cycle` as the maximum of the unit's
`time_cycles` column and attaches `RUL = max_cycle - time_cycles` to every
record of the unit. -/

/-- The unit's maximum observed cycle (`df.groupby('unit_number')['time_cycles'].max()`). -/
def maxCycle (c₀ : ℤ) (l : List ℤ) : ℤ := l.foldl max c₀

/-- Function `prepare_training_data` restricted to one unit: each record's cycle is
paired with its RUL label `max_cycle - cycle`. -/
def prepareTrainingData (c₀ : ℤ) (l : List ℤ) : List (ℤ × ℤ) :=
  (c₀ :: l).map (fun c => (c, maxCycle c₀ l - c))

lemma int_le_foldl_max (l : List ℤ) (v : ℤ) : v ≤ l.foldl max v := by
  induction l generalizing v with
  | nil => exact le_refl v
  | cons x t ih =>
      simp only [List.foldl_cons]
      exact le_trans (le_max_left v x) (ih (max v x))

lemma int_mem_le_foldl_max : ∀ (l : List ℤ) (v x : ℤ), x ∈ l → x ≤ l.foldl max v
  | [], _, _, hx => absurd hx (List.not_mem_nil _)
  | y :: t, v, x, hx => by
      simp only [List.foldl_cons]
      rcases List.mem_cons.mp hx with rfl | h
      · exact le_trans (le_max_right v x) (int_le_foldl_max t _)
      · exact int_mem_le_foldl_max t (max v y) x h

lemma le_maxCycle (c₀ : ℤ) (l : List ℤ) (c : ℤ) (hc : c ∈ c₀ :: l) :
    c ≤ maxCycle c₀ l := by
  rcases List.mem_cons.mp hc with h | h
  · exact h ▸ int_le_foldl_max l c₀
  · exact int_mem_le_foldl_max l c₀ c h

/-- C2: For every unit, every labeled record `(c, r)` produced by
`prepare_training_data` satisfies `r = max_cycle - c`, `r ≥ 0`, and `r = 0`
exactly when `c` is the unit's maximum observed cycle; and the label is
strictly decreasing as the cycle increases within the unit.  In particular,
for a unit with cycles `1..N` this gives `rul(c) = N - c`. -/
theorem rul_labeling_correct (c₀ : ℤ) (l : List ℤ) :
    (∀ p ∈ prepareTrainingData c₀ l,
        p.2 = maxCycle c₀ l - p.1 ∧ 0 ≤ p.2 ∧ (p.2 = 0 ↔ p.1 = maxCycle c₀ l)) ∧
      (∀ p ∈ prepareTrainingData c₀ l, ∀ q ∈ prepareTrainingData c₀ l,
        p.1 < q.1 → q.2 < p.2) := by
  constructor
  · intro p hp
    obtain ⟨c, hc, rfl⟩ := List.mem_map.mp hp
    refine ⟨rfl, sub_nonneg.mpr (le_maxCycle c₀ l c hc), ?_⟩
    show maxCycle c₀ l - c = 0 ↔ c = maxCycle c₀ l
    omega
  · intro p hp q hq hpq
    obtain ⟨c, _, rfl⟩ := List.mem_map.mp hp
    obtain ⟨c', _, rfl⟩ := List.mem_map.mp hq
    simp only at hpq ⊢
    omega

/-- Witness for `rul_labeling_correct`: unit with cycles `[1,2,3,4,5]`
(`N = 5`); record at cycle 2 carries RUL 3, and the labels decrease from
cycle 2 to cycle 4. -/
theorem rul_labeling_correct_witness :
    ((2 : ℤ), (3 : ℤ)).2 = maxCycle 1 [2, 3, 4, 5] - 2 ∧
      ((4 : ℤ), (1 : ℤ)).2 < ((2 : ℤ), (3 : ℤ)).2 := by
  have h := rul_labeling_correct 1 [2, 3, 4, 5]
  refine ⟨(h.1 (2, 3) (by decide)).1, ?_⟩
  exact h.2 (2, 3) (by decide) (4, 1) (by decide) (by decide)

/-! ### Record parsing (`mr_feature_summary.py` mapper, `mr_sensor_stats.py`)

A line is the list of its delimiter-separated fields; each field is
`some q` when `float()` succeeds and `none` when it raises.  A blank line
splits into fewer than 26 fields, so the mappers' blank-line early return
coincides with the short-line check in this model. -/

/-- An input line: the delimiter-separated fields after `split`. -/
abbrev Line := List (Option ℚ)

/-- Mapper `MRFeatureSummary.mapper`: for a line with at least 26 fields, emit
`(feature, value)` for each of the 24 feature columns (CSV indices 2..25)
whose `float()` conversion succeeds; a failing column is skipped
individually (`except ValueError: pass` inside the per-feature loop).
Features are identified by their position `0..23` in the
`feature_names` list (`op_setting_1..3, sensor_1..21`). -/
def featureSummaryMapper (line : Line) : List (ℕ × ℚ) :=
  if line.length < 26 then []
  else
    (List.range 24).filterMap (fun i =>
      match line.get? (i + 2) with
      | some (some q) => some (i, q)
      | _ => none)

/-- Mapper `MRSensorStats.mapper`: for a line with at least 26 fields, emit the
value of field 15 (sensor 11) when it parses; on a conversion failure the
whole line is dropped (`except Exception: pass` wraps the mapper body). -/
def sensorStatsMapper (line : Line) : List ℚ :=
  if 26 ≤ line.length then
    match line.get? 15 with
    | some (some q) => [q]
    | _ => []
  else []

/-- Output of `MRSensorStats.reducer`: `{min, max, avg, count}`. -/
structure SensorStatsOut where
  min : ℚ
  max : ℚ
  avg : ℚ
  count : ℕ
  deriving Repr, DecidableEq

/-- Reducer `MRSensorStats.reducer`: yields `{min, max, avg, count}` of the
collected values, and nothing when the value list is empty. -/
def sensorStatsReducer : List ℚ → Option SensorStatsOut
  | [] => none
  | v :: l =>
      some { min := l.foldl min v
             max := l.foldl max v
             avg := (v + l.sum) / (l.length + 1)
             count := l.length + 1 }

/-! ### Feature-summary reduce phase (`mr_feature_summary.py` reducer)

The reducer's accumulation loop starts from
`total_count = 0, total_sum = 0, global_min = inf, global_max = -inf,
total_sum_sq = 0`; the infinities are modelled by `⊤ : WithTop ℚ` and
`⊥ : WithBot ℚ`.  Because the job is dynamically typed, a reduce-phase
input value is either a raw float (what the mapper emits) or a statistics
dictionary (what the combiner emits); evaluating `stats['count']` on a raw
float raises `TypeError`, which nothing in the reducer catches, so the job
aborts — modelled by `none`. -/

/-- A value arriving at the reduce phase: a raw mapper emission or a
combiner statistics dictionary. -/
inductive MRVal where
  | raw (q : ℚ)
  | stats (s : AggregateStat)
  deriving Repr, DecidableEq

/-- The reducer's running accumulator
`(total_count, total_sum, global_min, global_max, total_sum_sq)`. -/
structure ReduceState where
  count : ℕ
  sum : ℚ
  min : WithTop ℚ
  max : WithBot ℚ
  sum_sq : ℚ
  deriving DecidableEq

/-- The reducer's initial accumulator: counts and sums at 0, `min` at
`float('inf')`, `max` at `float('-inf')`. -/
def initState : ReduceState := ⟨0, 0, ⊤, ⊥, 0⟩

/-- One iteration of the reducer's `for stats in stats_dicts` loop. -/
def reduceStep (st : ReduceState) (s : AggregateStat) : ReduceState :=
  { count := st.count + s.count
    sum := st.sum + s.sum
    min := min st.min (s.min : WithTop ℚ)
    max := max st.max (s.max : WithBot ℚ)
    sum_sq := st.sum_sq + s.sum_sq }

/-- The reducer's accumulation loop over the incoming values; a raw float
in the stream raises `TypeError` at `stats['count']`, aborting the job. -/
def reduceFold (st : ReduceState) : List MRVal → Option ReduceState
  | [] => some st
  | .raw _ :: _ => none
  | .stats s :: rest => reduceFold (reduceStep st s) rest

/-- The finalized per-feature output of `MRFeatureSummary.reducer`:
`{count, min, max, mean, variance}` with `mean` and `variance` rounded to 4
decimals.  The emitted `std = variance ** 0.5` and
`range = round(max - min, 4)` fields are determined by these and are not
modelled separately. -/
structure FeatureSummaryOut where
  count : ℕ
  min : WithTop ℚ
  max : WithBot ℚ
  mean : ℚ
  variance : ℚ
  deriving DecidableEq

/-- Finalization of the reducer state: `mean = sum/count if count > 0 else
0`, `variance = sum_sq/count - mean^2 if count > 0 else 0`, both rounded to
4 decimals in the emitted result. -/
def finalizeState (st : ReduceState) : FeatureSummaryOut :=
  let mean := if st.count = 0 then 0 else st.sum / st.count
  let variance := if st.count = 0 then 0 else st.sum_sq / st.count - mean * mean
  { count := st.count
    min := st.min
    max := st.max
    mean := round4 mean
    variance := round4 variance }

/-- Reducer `MRFeatureSummary.reducer` on one feature's reduce-phase input stream. -/
def featureSummaryReducer (l : List MRVal) : Option FeatureSummaryOut :=
  (reduceFold initState l).map finalizeState

/-- Lifting a combiner state into a reducer accumulator. -/
def liftStat (s : AggregateStat) : ReduceState :=
  ⟨s.count, s.sum, (s.min : WithTop ℚ), (s.max : WithBot ℚ), s.sum_sq⟩

/-- A partitioning of one feature's mapper emissions into nonempty combiner
groups: each group is a head value plus the rest of the group. -/
abbrev Grouping := List (ℚ × List ℚ)

/-- The raw value stream represented by a nonempty list of groups, with
head group `g₀`. -/
def flattenGroups (g₀ : ℚ × List ℚ) (gs : Grouping) : ℚ × List ℚ :=
  (g₀.1, g₀.2 ++ gs.flatMap (fun g => g.1 :: g.2))

/-- The combiner outputs of a list of groups. -/
def statsOfGroups (gs : Grouping) : List AggregateStat :=
  gs.map (fun g => combinerStat g.1 g.2)

lemma reduceStep_initState (s : AggregateStat) :
    reduceStep initState s = liftStat s := by
  simp [reduceStep, initState, liftStat]

lemma reduceStep_liftStat (a s : AggregateStat) :
    reduceStep (liftStat a) s = liftStat (mergeStats a s) := by
  simp [reduceStep, liftStat, mergeStats, WithTop.coe_min, WithBot.coe_max]

lemma reduceFold_stats (l : List AggregateStat) (a : AggregateStat) :
    reduceFold (liftStat a) (l.map MRVal.stats) =
      some (liftStat (l.foldl mergeStats a)) := by
  induction l generalizing a with
  | nil => rfl
  | cons s t ih =>
      simp only [List.map_cons, reduceFold, List.foldl_cons, reduceStep_liftStat]
      exact ih (mergeStats a s)

lemma foldl_mergeStats_statsOfGroups (gs : Grouping) (v : ℚ) (l : List ℚ) :
    (statsOfGroups gs).foldl mergeStats (combinerStat v l) =
      combinerStat v (l ++ gs.flatMap (fun g => g.1 :: g.2)) := by
  induction gs generalizing l with
  | nil => simp [statsOfGroups]
  | cons g t ih =>
      simp only [statsOfGroups, List.map_cons, List.foldl_cons,
        List.flatMap_cons, mergeStats_combinerStat]
      rw [show List.map (fun g => combinerStat g.1 g.2) t = statsOfGroups t
          from rfl,
        ih (l ++ g.1 :: g.2), List.append_assoc]

/-- C4 counterexample: on the one-value stream `[1]`, the full pipeline
with the combiner yields a finalized statistic, while feeding the mapper's
raw emission `1.0` directly to the reducer aborts with a `TypeError` at
`stats['count']` (a float is not subscriptable) and yields no output — so
the reducer cannot consume raw mapper emissions and omitting the combiner
does not produce the same output. -/
theorem combiner_not_omittable_counterexample :
    featureSummaryReducer [MRVal.raw 1] = none ∧
      featureSummaryReducer [MRVal.stats (combinerStat 1 [])] ≠ none := by
  refine ⟨rfl, ?_⟩
  rw [show featureSummaryReducer [MRVal.stats (combinerStat 1 [])] =
        some (finalizeState (liftStat (combinerStat 1 []))) from by
      unfold featureSummaryReducer reduceFold
      rw [reduceStep_initState]
      rfl]
  exact Option.some_ne_none _

/-- C4 amended: among runs that do include the combine phase, combining is
a pure optimization — for every partitioning of a feature's mapper
emissions into nonempty combiner groups, the reducer applied to the
combiner outputs yields exactly the finalized one-pass aggregate of the
underlying raw value stream, so the output is independent of the grouping;
whereas the reducer applied to the raw mapper emissions themselves always
aborts with no output. -/
theorem combiner_grouping_invariant (g₀ : ℚ × List ℚ) (gs : Grouping)
    (v : ℚ) (l : List ℚ) :
    featureSummaryReducer ((statsOfGroups (g₀ :: gs)).map MRVal.stats) =
        some (finalizeState (liftStat
          (combinerStat (flattenGroups g₀ gs).1 (flattenGroups g₀ gs).2))) ∧
      featureSummaryReducer ((v :: l).map MRVal.raw) = none := by
  constructor
  · unfold featureSummaryReducer
    rw [show statsOfGroups (g₀ :: gs) =
          combinerStat g₀.1 g₀.2 :: statsOfGroups gs from rfl]
    rw [show reduceFold initState
          ((combinerStat g₀.1 g₀.2 :: statsOfGroups gs).map MRVal.stats) =
          reduceFold (reduceStep initState (combinerStat g₀.1 g₀.2))
            ((statsOfGroups gs).map MRVal.stats) from rfl]
    rw [reduceStep_initState, reduceFold_stats,
      foldl_mergeStats_statsOfGroups]
    rfl
  · rfl

/-- C7: Finalized per-feature statistics with positive count satisfy
`min ≤ mean ≤ max`.  For `MRSensorStats.reducer` this is the emitted
`{min, avg, max}` of the nonempty value stream `v :: l`.  For
`MRFeatureSummary`, the state the reducer finalizes for the stream
`v :: l` (under any combiner grouping) is `combinerStat v l`; its
finalized mean `sum / count` lies between its accumulated min and max, and
the reducer emits exactly the finalization of that state. -/
theorem min_le_mean_le_max (v : ℚ) (l : List ℚ) :
    (∃ out, sensorStatsReducer (v :: l) = some out ∧
        0 < out.count ∧ out.min ≤ out.avg ∧ out.avg ≤ out.max) ∧
      (0 < (combinerStat v l).count ∧
        (combinerStat v l).min ≤ statMean (combinerStat v l) ∧
        statMean (combinerStat v l) ≤ (combinerStat v l).max) ∧
      featureSummaryReducer [MRVal.stats (combinerStat v l)] =
        some (finalizeState (liftStat (combinerStat v l))) := by
  have hpos : (0 : ℚ) < (l.length : ℚ) + 1 := by positivity
  have hmin : l.foldl min v ≤ (v + l.sum) / ((l.length : ℚ) + 1) :=
    (le_div_iff₀ hpos).mpr (foldl_min_mul_le_sum l v)
  have hmax : (v + l.sum) / ((l.length : ℚ) + 1) ≤ l.foldl max v :=
    (div_le_iff₀ hpos).mpr (sum_le_foldl_max_mul l v)
  refine ⟨⟨_, rfl, Nat.succ_pos _, hmin, hmax⟩, ⟨Nat.succ_pos _, ?_, ?_⟩, ?_⟩
  · show (combinerStat v l).min ≤ statMean (combinerStat v l)
    unfold statMean combinerStat
    simp only [Nat.succ_ne_zero, if_neg]
    push_cast
    exact hmin
  · show statMean (combinerStat v l) ≤ (combinerStat v l).max
    unfold statMean combinerStat
    simp only [Nat.succ_ne_zero, if_neg]
    push_cast
    exact hmax
  · unfold featureSummaryReducer reduceFold
    rw [reduceStep_initState]
    rfl

/-! ### Degradation metrics (`mr_degradation_metrics.py`)

The mapper keeps the five critical sensors; a sensor whose `float()`
conversion fails (or whose index is absent) is replaced by `0.0` and the
record is still emitted.  The reducer sorts one unit's records by cycle,
compares an early window against a late window, and reports percentage
drift and a health index. -/

/-- One mapper emission: cycle plus the five critical sensor readings
(`temp_hpc` = CSV index 4, `pressure_hpc` = 12, `fan_speed` = 9,
`core_speed` = 10, `fuel_ratio` = 13). -/
structure CycleData where
  cycle : ℤ
  temp_hpc : ℚ
  pressure_hpc : ℚ
  fan_speed : ℚ
  core_speed : ℚ
  fuel_ratio : ℚ
  deriving Repr, DecidableEq

/-- Sensor extraction `float(parts[idx])` guarded by `except (ValueError, IndexError):
sensor_data[name] = 0.0`: the sensor value, or `0` when the field is
missing or unparseable. -/
def getSensor (line : Line) (idx : ℕ) : ℚ :=
  match line.get? idx with
  | some (some q) => q
  | _ => 0

/-- Mapper `MRDegradationMetrics.mapper`: drop lines with fewer than 15 fields and
lines whose unit or cycle field fails conversion; otherwise emit
`(unit, cycle_data)` with per-sensor `0.0` fallback. -/
def degMapper (line : Line) : Option (ℤ × CycleData) :=
  if line.length < 15 then none
  else
    match line.get? 0, line.get? 1 with
    | some (some u), some (some c) =>
        some (ratTrunc u,
          { cycle := ratTrunc c
            temp_hpc := getSensor line 4
            pressure_hpc := getSensor line 12
            fan_speed := getSensor line 9
            core_speed := getSensor line 10
            fuel_ratio := getSensor line 13 })
    | _, _ => none

/-- Stable insertion into a cycle-sorted list (an equal-cycle record goes
after the existing ones, as Python's stable `sorted` would keep it). -/
def insertByCycle (r : CycleData) : List CycleData → List CycleData
  | [] => [r]
  | x :: t => if x.cycle ≤ r.cycle then x :: insertByCycle r t else r :: x :: t

/-- Sorting step `sorted(cycle_data_list, key=lambda x: x['cycle'])`. -/
def sortByCycle : List CycleData → List CycleData
  | [] => []
  | r :: t => insertByCycle r (sortByCycle t)

lemma length_insertByCycle (r : CycleData) (l : List CycleData) :
    (insertByCycle r l).length = l.length + 1 := by
  induction l with
  | nil => rfl
  | cons x t ih =>
      unfold insertByCycle
      by_cases h : x.cycle ≤ r.cycle <;> simp [h, ih]

lemma length_sortByCycle (l : List CycleData) :
    (sortByCycle l).length = l.length := by
  induction l with
  | nil => rfl
  | cons r t ih => simp [sortByCycle, length_insertByCycle, ih]

/-- Python slice `a[:k]` for `k ≥ 0`. -/
def pySliceTo (a : List CycleData) (k : ℕ) : List CycleData := a.take k

/-- Python slice `a[-k:]` for `k ≥ 0`: the last `k` elements — except that
`a[-0:]` is `a[0:]`, the whole list. -/
def pySliceFromNeg (a : List CycleData) (k : ℕ) : List CycleData :=
  if k = 0 then a else a.drop (a.length - k)

/-- The early window `all_data[:min(10, len(all_data) // 4)]`. -/
def earlyWindow (s : List CycleData) : List CycleData :=
  pySliceTo s (min 10 (s.length / 4))

/-- The late window `all_data[-min(10, len(all_data) // 4):]`. -/
def lateWindow (s : List CycleData) : List CycleData :=
  pySliceFromNeg s (min 10 (s.length / 4))

/-- Helper `avg_sensors` for one sensor: the window average, with the
`.get(sensor, 0)` fallback to `0` on the empty window (where `avg_sensors`
returns the empty dict). -/
def avgWindow (w : List CycleData) (f : CycleData → ℚ) : ℚ :=
  if w.length = 0 then 0 else (w.map f).sum / w.length

/-- The reducer's per-sensor percentage change, rounded to 2 decimals:
`((late - early) / abs(early)) * 100` when `early != 0`, else `0`. -/
def pctChange (early late : ℚ) : ℚ :=
  if early ≠ 0 then round2 ((late - early) / |early| * 100) else 0

/-- The reducer's health index from the (already rounded) temperature and
pressure percentage changes: `round(-temp_increase + pressure_change, 2)`. -/
def healthIndex (tempPct pressurePct : ℚ) : ℚ :=
  round2 (-tempPct + pressurePct)

/-- The degradation report emitted per unit (`total_cycles`, the five
per-sensor pct changes, the health index, and the rounded window averages
for temperature and pressure). -/
structure DegReport where
  total_cycles : ℤ
  temp_pct : ℚ
  pressure_pct : ℚ
  fan_pct : ℚ
  core_pct : ℚ
  fuel_pct : ℚ
  health_index : ℚ
  early_avg_temp : ℚ
  late_avg_temp : ℚ
  early_avg_pressure : ℚ
  late_avg_pressure : ℚ
  deriving Repr, DecidableEq

/-- Reducer `MRDegradationMetrics.reducer` for one unit: sort by cycle, drop units
with fewer than 2 records, window, average, and report. -/
def degReducer (l : List CycleData) : Option DegReport :=
  let s := sortByCycle l
  if s.length < 2 then none
  else
    let early := earlyWindow s
    let late := lateWindow s
    let eT := avgWindow early (·.temp_hpc)
    let lT := avgWindow late (·.temp_hpc)
    let eP := avgWindow early (·.pressure_hpc)
    let lP := avgWindow late (·.pressure_hpc)
    let dT := pctChange eT lT
    let dP := pctChange eP lP
    some { total_cycles := (s.getLast?.map (·.cycle)).getD 0
           temp_pct := dT
           pressure_pct := dP
           fan_pct := pctChange (avgWindow early (·.fan_speed))
             (avgWindow late (·.fan_speed))
           core_pct := pctChange (avgWindow early (·.core_speed))
             (avgWindow late (·.core_speed))
           fuel_pct := pctChange (avgWindow early (·.fuel_ratio))
             (avgWindow late (·.fuel_ratio))
           health_index := healthIndex dT dP
           early_avg_temp := round2 eT
           late_avg_temp := round2 lT
           early_avg_pressure := round2 eP
           late_avg_pressure := round2 lP }

/-! ### Model training (`backend/model_service.py`, `train_model`) -/

/-- Modelled dependency (scikit-learn, outside this repository):
`RandomForestRegressor(...).fit(X, y)` succeeds on every nonempty numeric
training set — including a label-invariant one, where the fitted forest
simply predicts the constant label — and raises no error.  The fitted
model artifact is abstracted as the training set it was fitted on. -/
def fitRandomForest (data : List (List ℚ × ℚ)) : List (List ℚ × ℚ) := data

/-- Training path `ModelService.train_model`: return
`(False, "Dataframe is empty.")` and save nothing when the training frame
is empty; otherwise fit the regressor, save the artifact, and return
success.  The result is `(success flag, saved model artifact)`. -/
def train_model (data : List (List ℚ × ℚ)) :
    Bool × Option (List (List ℚ × ℚ)) :=
  if data.isEmpty then (false, none) else (true, some (fitRandomForest data))

/-- A rational that is an exact multiple of 1/100, i.e., a value already
rounded to 2 decimals (the form of every pct_change stored in the
degradation dict). -/
def isCent (q : ℚ) : Prop := ∃ n : ℤ, q = n / 100

lemma round2_eq_of_isCent {q : ℚ} (h : isCent q) : round2 q = q := by
  obtain ⟨n, rfl⟩ := h
  unfold round2
  rw [div_mul_cancel₀ (n : ℚ) (by norm_num), round_intCast]

lemma isCent_round2 (q : ℚ) : isCent (round2 q) := ⟨round (q * 100), rfl⟩

lemma isCent_pctChange (e l : ℚ) : isCent (pctChange e l) := by
  unfold pctChange
  by_cases h : e ≠ 0
  · rw [if_pos h]
    exact isCent_round2 _
  · rw [if_neg h]
    exact ⟨0, by norm_num⟩

/-! ## Claim theorems for the degradation job, parsers and training -/

/-- C3 counterexample: a unit with exactly 2 records (cycles 1 and 2).
The claim says the late window is the last `min(10, floor(2/4)) = 0`
records, with a single-record fallback on each end when `floor(n/4) = 0`;
the code's `all_data[:0]` is empty and `all_data[-0:]` is the whole
2-record list, so neither window is a single record. -/
theorem degradation_window_counterexample :
    (earlyWindow (sortByCycle
        [⟨1, 1, 1, 1, 1, 1⟩, ⟨2, 2, 2, 2, 2, 2⟩])).length = 0 ∧
      (lateWindow (sortByCycle
        [⟨1, 1, 1, 1, 1, 1⟩, ⟨2, 2, 2, 2, 2, 2⟩])).length = 2 := by
  decide

/-- C3 amended: a unit with fewer than 2 records is excluded from the
degradation report; for `n ≥ 4` the early window is exactly the first
`min(10, floor(n/4))` records and the late window exactly the last
`min(10, floor(n/4))` records; but when `floor(n/4) = 0` (`n = 2` or
`n = 3`) the early window is empty and the late window is the entire
record list (`all_data[-0:]`), not a single-record window on each end. -/
theorem degradation_window_selection (l : List CycleData) :
    (l.length < 2 → degReducer l = none) ∧
      (2 ≤ l.length → (degReducer l).isSome) ∧
      (4 ≤ l.length →
        earlyWindow l = l.take (min 10 (l.length / 4)) ∧
        (earlyWindow l).length = min 10 (l.length / 4) ∧
        lateWindow l = l.drop (l.length - min 10 (l.length / 4)) ∧
        (lateWindow l).length = min 10 (l.length / 4)) ∧
      ((l.length = 2 ∨ l.length = 3) →
        earlyWindow l = [] ∧ lateWindow l = l) := by
  refine ⟨?_, ?_, ?_, ?_⟩
  · intro h
    unfold degReducer
    rw [if_pos (by rw [length_sortByCycle]; exact h)]
  · intro h
    unfold degReducer
    rw [if_neg (by rw [length_sortByCycle]; omega)]
    exact Option.isSome_some
  · intro h
    have hw1 : 1 ≤ min 10 (l.length / 4) := by omega
    have hwn : min 10 (l.length / 4) ≤ l.length := by omega
    refine ⟨rfl, ?_, ?_, ?_⟩
    · rw [earlyWindow, pySliceTo, List.length_take]
      omega
    · rw [lateWindow, pySliceFromNeg, if_neg (by omega)]
    · rw [lateWindow, pySliceFromNeg, if_neg (by omega), List.length_drop]
      omega
  · intro h
    have hw : min 10 (l.length / 4) = 0 := by omega
    constructor
    · rw [earlyWindow, pySliceTo, hw, List.take_zero]
    · rw [lateWindow, pySliceFromNeg, hw, if_pos rfl]

/-- Witness for `degradation_window_selection`: a 1-record unit emits no
report; an 8-record unit gets windows of length `min(10, 8/4) = 2`; a
2-record unit gets an empty early window and the whole list as late
window. -/
theorem degradation_window_selection_witness :
    degReducer [⟨1, 0, 0, 0, 0, 0⟩] = none ∧
      (earlyWindow (List.replicate 8 ⟨1, 0, 0, 0, 0, 0⟩)).length =
        min 10 ((List.replicate 8 (⟨1, 0, 0, 0, 0, 0⟩ : CycleData)).length / 4) ∧
      lateWindow [⟨1, 1, 1, 1, 1, 1⟩, ⟨2, 2, 2, 2, 2, 2⟩] =
        [⟨1, 1, 1, 1, 1, 1⟩, ⟨2, 2, 2, 2, 2, 2⟩] :=
  ⟨(degradation_window_selection [⟨1, 0, 0, 0, 0, 0⟩]).1 (by decide),
    ((degradation_window_selection
      (List.replicate 8 ⟨1, 0, 0, 0, 0, 0⟩)).2.2.1 (by decide)).2.1,
    ((degradation_window_selection
      [⟨1, 1, 1, 1, 1, 1⟩, ⟨2, 2, 2, 2, 2, 2⟩]).2.2.2 (Or.inl (by decide))).2⟩

/-- C5 counterexample: with an early-window average of 0 and a late-window
average of 1, the change direction is upward but the reported pct_change is
the sentinel 0, not positive; and with early 3, late 4 the reported value
is the 2-decimal rounding 33.33, not the exact `(late-early)/|early|*100 =
100/3`. -/
theorem pct_change_sign_counterexample :
    (0 : ℚ) < 1 ∧ pctChange 0 1 = 0 ∧
      pctChange 3 4 ≠ (4 - 3) / |(3 : ℚ)| * 100 := by
  refine ⟨by norm_num, by norm_num [pctChange], ?_⟩
  have habs : |(3 : ℚ)| = 3 := by norm_num
  have harg : ((4 : ℚ) - 3) / |(3 : ℚ)| * 100 * 100 = 10000 / 3 := by
    rw [habs]; norm_num
  have hround : round ((10000 : ℚ) / 3) = 3333 := by
    rw [round_eq, Int.floor_eq_iff]; norm_num
  rw [pctChange, if_pos (by norm_num), round2, harg, hround, habs]
  norm_num

/-- C5 amended: the reported pct_change equals the 2-decimal rounding of
`(late - early) / |early| * 100` when `early ≠ 0` and is the sentinel 0
when `early = 0`; it is 0 whenever the two window averages are equal; and
when `early ≠ 0`, `late > early` implies the reported pct_change is
nonnegative (positive up to the 2-decimal rounding). -/
theorem pct_change_amended (e l : ℚ) :
    (e = 0 → pctChange e l = 0) ∧
      (e ≠ 0 → pctChange e l = round2 ((l - e) / |e| * 100)) ∧
      (e = l → pctChange e l = 0) ∧
      (e ≠ 0 → e < l → 0 ≤ pctChange e l) := by
  refine ⟨?_, ?_, ?_, ?_⟩
  · intro h
    simp [pctChange, h]
  · intro h
    rw [pctChange, if_pos h]
  · intro h
    subst h
    by_cases h : e ≠ 0
    · rw [pctChange, if_pos h]
      simp [round2]
    · rw [pctChange, if_neg h]
  · intro h hel
    rw [pctChange, if_pos h]
    have h1 : 0 < l - e := by linarith
    have h2 : 0 < |e| := abs_pos.mpr h
    have hx : 0 ≤ (l - e) / |e| * 100 * 100 := by positivity
    have hr : (0 : ℤ) ≤ round ((l - e) / |e| * 100 * 100) := by
      rw [round_eq]
      exact Int.floor_nonneg.mpr (by linarith)
    rw [round2]
    exact div_nonneg (by exact_mod_cast hr) (by norm_num)

/-- Witness for `pct_change_amended` at `early = 0, late = 5` and
`early = 2, late = 3`. -/
theorem pct_change_amended_witness :
    pctChange 0 5 = 0 ∧
      pctChange 2 3 = round2 ((3 - 2) / |(2 : ℚ)| * 100) ∧
      0 ≤ pctChange 2 3 :=
  ⟨(pct_change_amended 0 5).1 rfl,
    (pct_change_amended 2 3).2.1 (by norm_num),
    (pct_change_amended 2 3).2.2.2 (by norm_num) (by norm_num)⟩

/-- C8: Every pct_change stored in the degradation dict is an exact
multiple of 1/100, and on such inputs the health index
`round(-temp_pct + pressure_pct, 2)` is strictly decreasing in the
temperature pct_change and strictly increasing in the pressure pct_change:
a temperature increase is penalized, a pressure increase rewarded. -/
theorem health_index_sign_conventions (t t' p p' : ℚ) :
    (∀ e l, isCent (pctChange e l)) ∧
      (isCent t → isCent t' → isCent p → t < t' →
        healthIndex t' p < healthIndex t p) ∧
      (isCent t → isCent p → isCent p' → p < p' →
        healthIndex t p < healthIndex t p') := by
  have hval : ∀ a b : ℚ, isCent a → isCent b → healthIndex a b = -a + b := by
    intro a b ⟨m, hm⟩ ⟨n, hn⟩
    rw [healthIndex, round2_eq_of_isCent]
    exact ⟨n - m, by rw [hm, hn]; push_cast; ring⟩
  refine ⟨isCent_pctChange, ?_, ?_⟩
  · intro ht ht' hp hlt
    rw [hval t p ht hp, hval t' p ht' hp]
    linarith
  · intro ht hp hp' hlt
    rw [hval t p ht hp, hval t p' ht hp']
    linarith

/-- Witness for `health_index_sign_conventions`: the temperature pct_change
rising from 0.01 to 0.02 strictly lowers the health index, and the
pressure pct_change rising from 0 to 0.05 strictly raises it. -/
theorem health_index_sign_conventions_witness :
    isCent (pctChange 2 3) ∧
      healthIndex (2 / 100) 0 < healthIndex (1 / 100) 0 ∧
      healthIndex (1 / 100) (5 / 100) < healthIndex (1 / 100) (6 / 100) :=
  ⟨(health_index_sign_conventions 0 0 0 0).1 2 3,
    (health_index_sign_conventions (1 / 100) (2 / 100) 0 0).2.1
      ⟨1, by norm_num⟩ ⟨2, by norm_num⟩ ⟨0, by norm_num⟩ (by norm_num),
    (health_index_sign_conventions (1 / 100) 0 (5 / 100) (6 / 100)).2.2
      ⟨1, by norm_num⟩ ⟨5, by norm_num⟩ ⟨6, by norm_num⟩ (by norm_num)⟩

/-- C10: In the degradation-metrics mapper, a line with at least 15 fields
whose unit and cycle fields parse but whose critical temperature sensor
field (CSV index 4) fails `float()` conversion is not discarded: the
mapper substitutes `0.0` for that sensor and still emits the record, so
the unparseable reading contributes 0 to the unit's window averages. -/
theorem deg_mapper_substitutes_zero (line : Line) (u c : ℚ)
    (hlen : 15 ≤ line.length)
    (h0 : line.get? 0 = some (some u))
    (h1 : line.get? 1 = some (some c))
    (h4 : line.get? 4 = some none) :
    degMapper line = some (ratTrunc u,
      { cycle := ratTrunc c
        temp_hpc := 0
        pressure_hpc := getSensor line 12
        fan_speed := getSensor line 9
        core_speed := getSensor line 10
        fuel_ratio := getSensor line 13 }) := by
  unfold degMapper
  rw [if_neg (by omega), h0, h1]
  have : getSensor line 4 = 0 := by rw [getSensor, h4]
  rw [this]

/-- Witness for `deg_mapper_substitutes_zero`: a concrete 15-field line
with unit 1, cycle 2 and an unparseable temperature field is emitted with
`temp_hpc = 0`. -/
theorem deg_mapper_substitutes_zero_witness :
    degMapper [some 1, some 2, some 9, some 9, none, some 9, some 9, some 9,
        some 9, some 7, some 8, some 9, some 6, some 5, some 9] =
      some (1, ⟨2, 0, 6, 7, 8, 5⟩) := by
  have h := deg_mapper_substitutes_zero
    [some 1, some 2, some 9, some 9, none, some 9, some 9, some 9,
      some 9, some 7, some 8, some 9, some 6, some 5, some 9]
    1 2 (by decide) (by decide) (by decide) (by decide)
  rw [h]
  decide

/-- C6 counterexample: a 26-field line whose `op_setting_1` field (CSV
index 2, one of the fields the feature-summary mapper converts) fails
numeric conversion is not discarded with no output: the mapper still emits
the other 23 features. -/
theorem mapper_required_field_counterexample :
    (featureSummaryMapper
        (some 1 :: some 1 :: none :: List.replicate 23 (some 5))).length
      = 23 := by
  decide

/-- C6 amended: both mappers are total functions (a corrupt line can never
abort the stream); every line with fewer than 26 fields (including a blank
line) yields no output from either full-schema mapper; in
`MRSensorStats.mapper` a conversion failure of the required sensor-11
field discards the whole line; but in `MRFeatureSummary.mapper` a
conversion failure discards only that feature's emission — the emitted
pairs are exactly the features whose fields parse. -/
theorem mapper_skip_policy (line : Line) :
    (line.length < 26 →
        featureSummaryMapper line = [] ∧ sensorStatsMapper line = []) ∧
      (26 ≤ line.length → line.get? 15 = some none →
        sensorStatsMapper line = []) ∧
      (26 ≤ line.length → ∀ i q,
        ((i, q) ∈ featureSummaryMapper line ↔
          i < 24 ∧ line.get? (i + 2) = some (some q))) := by
  refine ⟨?_, ?_, ?_⟩
  · intro h
    constructor
    · rw [featureSummaryMapper, if_pos h]
    · rw [sensorStatsMapper, if_neg (by omega)]
  · intro h h15
    rw [sensorStatsMapper, if_pos h, h15]
  · intro h i q
    rw [featureSummaryMapper, if_neg (by omega), List.mem_filterMap]
    constructor
    · rintro ⟨a, ha, hf⟩
      rcases hget : line.get? (a + 2) with _ | q₂
      · rw [hget] at hf
        exact absurd hf (by simp)
      · rcases q₂ with _ | q'
        · rw [hget] at hf
          exact absurd hf (by simp)
        · rw [hget] at hf
          simp only [Option.some.injEq, Prod.mk.injEq] at hf
          obtain ⟨rfl, rfl⟩ := hf
          exact ⟨List.mem_range.mp ha, hget⟩
    · rintro ⟨hi, hq⟩
      exact ⟨i, List.mem_range.mpr hi, by rw [hq]⟩

/-- Witness for `mapper_skip_policy`: a 1-field line yields nothing from
either mapper; a 26-field line with an unparseable field 15 yields nothing
from the sensor-stats mapper; and on an all-ones 26-field line the
feature-summary mapper emits feature 0 with value 1. -/
theorem mapper_skip_policy_witness :
    featureSummaryMapper [some 1] = [] ∧
      sensorStatsMapper
        (List.replicate 15 (some 1) ++ none :: List.replicate 10 (some 1)) = [] ∧
      (0, (1 : ℚ)) ∈ featureSummaryMapper (List.replicate 26 (some 1)) :=
  ⟨((mapper_skip_policy [some 1]).1 (by decide)).1,
    (mapper_skip_policy _).2.1 (by decide) (by decide),
    ((mapper_skip_policy (List.replicate 26 (some 1))).2.2 (by decide)
      0 1).mpr ⟨by decide, by decide⟩⟩

/-- C9 counterexample: a label-invariant (single-class) training set — two
rows both labeled 5 — trains successfully and saves a model artifact
instead of signaling an error: `train_model` only rejects an empty frame,
and the regressor fits a constant without flagging it. -/
theorem degenerate_training_counterexample :
    (train_model [([1], 5), ([2], 5)]).1 = true ∧
      (train_model [([1], 5), ([2], 5)]).2.isSome = true := by
  decide

/-- C9 amended: training on an empty training set fails explicitly with no
saved model artifact, but every nonempty training set — label-invariant or
not — produces a fitted, saved model and a success result. -/
theorem degenerate_training_amended (data : List (List ℚ × ℚ)) :
    (data = [] → train_model data = (false, none)) ∧
      (data ≠ [] → (train_model data).1 = true ∧
        (train_model data).2 = some (fitRandomForest data)) := by
  constructor
  · intro h
    rw [train_model, if_pos (by simp [h])]
  · intro h
    rw [train_model, if_neg (by simp [h])]
    exact ⟨rfl, rfl⟩

/-- Witness for `degenerate_training_amended`: the empty set fails; the
one-row set trains. -/
theorem degenerate_training_amended_witness :
    train_model [] = (false, none) ∧ (train_model [([1], 5)]).1 = true :=
  ⟨(degenerate_training_amended []).1 rfl,
    ((degenerate_training_amended [([1], 5)]).2 (by decide)).1⟩

end Turbojet
